import Mathlib

/-
  Verification of the async-zmq send/receive engine (tokio-zmq "Core A" and
  futures-zmq "Core B") against its natural-language specification.

  The Rust sources are shallowly embedded: native-socket behaviour (send/recv
  outcomes, event masks, poll results, oneshot-channel resolutions) is supplied
  by explicit oracles (lists of outcomes consumed in call order, or values
  passed per tick), state mutation becomes explicit state passing, and a Rust
  panic is modelled as the `none` case of an `Option`-valued result.
-/

set_option maxRecDepth 10000
set_option linter.unusedVariables false

deriving instance DecidableEq for Except

namespace AsyncZmq

/-- A zmq frame: an opaque byte payload (modelled as a list of bytes) plus the
more-frames-follow flag that `get_more` reports on received messages. -/
structure Msg where
  data : List Nat
  more : Bool
deriving DecidableEq

/-- A multipart message: an ordered sequence of frames (Rust `VecDeque<Message>`;
`pop_front` is head, `push_back` is append). -/
abbrev Multipart := List Msg

/-- zmq::DONTWAIT flag bit. -/
def DONTWAIT : Nat := 1

/-- zmq::SNDMORE flag bit. -/
def SNDMORE : Nat := 2

/-- zmq POLLIN event bit. -/
def POLLIN : Nat := 1

/-- zmq POLLOUT event bit. -/
def POLLOUT : Nat := 2

/-- zmq EFSM error code (operation cannot be accomplished in current state). -/
def EFSM : Nat := 156384763

/-- futures 0.1 `Async`: ready with a value, or not ready. -/
inductive Async (α : Type) where
  | ready (a : α)
  | notReady
deriving DecidableEq

/-- Outcome of one native non-blocking `send` call, supplied by the environment
oracle: accepted, transiently unavailable (EAGAIN), or a hard error code. -/
inductive SendOutcome where
  | ok
  | eagain
  | err (code : Nat)
deriving DecidableEq

/-- Outcome of one native non-blocking `recv` call, supplied by the environment
oracle: a frame, EAGAIN, or a hard error code (EFSM is `err EFSM`). -/
inductive RecvOutcome where
  | msg (m : Msg)
  | eagain
  | err (code : Nat)
deriving DecidableEq

end AsyncZmq

namespace AsyncZmq.TokioZmq

open AsyncZmq

/-- Core A native socket model: the current native event mask returned by
`get_events`, and oracles for successive `send`/`recv` call outcomes.
An exhausted oracle stands for a socket that reports EAGAIN. -/
structure ZSock where
  events : Nat
  sends : List SendOutcome
  recvs : List RecvOutcome
deriving DecidableEq

/-- Consume the next native send outcome from the socket oracle. -/
def sendMsgStep (sock : ZSock) : SendOutcome × ZSock :=
  match sock.sends with
  | [] => (.eagain, sock)
  | o :: rest => (o, { sock with sends := rest })

/-- Consume the next native recv outcome from the socket oracle. -/
def recvMsgStep (sock : ZSock) : RecvOutcome × ZSock :=
  match sock.recvs with
  | [] => (.eagain, sock)
  | o :: rest => (o, { sock with recvs := rest })

/-- Core A error type (`tokio-zmq::Error`), restricted to the variants the
embedded code can produce: a native zmq error code, or `Error::Reused`. -/
inductive AError where
  | zmqErr (code : Nat)
  | reused
deriving DecidableEq

/-- Reactor / task-notification effects performed by a Core A tick, recorded in
call order (native send attempts are also traced with their flags). -/
inductive Ev where
  | filePollWriteReady
  | filePollReadReady
  | clearWriteReady
  | clearReadReady
  | notifyTask
  | nativeSend (m : Msg) (flags : Nat)
deriving DecidableEq

/-- Result of the Core A send loop `request::send`: the poll result, the
remaining multipart, the advanced socket oracle, the frames accepted by the
native socket in order, and every native send attempt with its flags. -/
structure SendRes where
  result : Except Nat (Async Unit)
  mp : Multipart
  sock : ZSock
  sentOk : List Msg
  attempts : List (Msg × Nat)
deriving DecidableEq

/-- Core A `request::send` (future_types.rs lines 33-45 with `send_msg` lines
47-64): pop the head frame, send it with `DONTWAIT` plus `SNDMORE` unless it is
the last frame; on success continue, on EAGAIN push the (byte-identical clone
of the) frame back to the front and report NotReady, on a hard error propagate
(the popped frame is not restored). -/
def request.send (sock : ZSock) (mp : Multipart) : SendRes :=
  match mp with
  | [] => { result := .ok (.ready ()), mp := [], sock := sock, sentOk := [], attempts := [] }
  | m :: rest =>
    let flags := DONTWAIT ||| (if rest.isEmpty then 0 else SNDMORE)
    match sendMsgStep sock with
    | (.ok, sock2) =>
      let r := request.send sock2 rest
      { r with sentOk := m :: r.sentOk, attempts := (m, flags) :: r.attempts }
    | (.eagain, sock2) =>
      { result := .ok .notReady, mp := m :: rest, sock := sock2,
        sentOk := [], attempts := [(m, flags)] }
    | (.err c, sock2) =>
      { result := .error c, mp := rest, sock := sock2,
        sentOk := [], attempts := [(m, flags)] }

/-- Core A readiness reconciliation for the write direction
(`request::poll_write_ready`, future_types.rs lines 66-75): if POLLOUT is in the
native event mask proceed, otherwise clear the reactor's write-armed bit and
report NotReady. -/
def pollWriteReadyCheck (sock : ZSock) : Async Unit × List Ev :=
  if sock.events &&& POLLOUT == POLLOUT then (.ready (), [])
  else (.notReady, [.clearWriteReady])

/-- Core A readiness reconciliation for the read direction
(`response::poll_read_ready`, future_types.rs lines 139-148). -/
def pollReadReadyCheck (sock : ZSock) : Async Unit × List Ev :=
  if sock.events &&& POLLIN == POLLIN then (.ready (), [])
  else (.notReady, [.clearReadReady])

/-- Trace entries for a list of native send attempts. -/
def attemptsTrace (attempts : List (Msg × Nat)) : List Ev :=
  attempts.map (fun p => Ev.nativeSend p.1 p.2)

/-- Result of a Core A tick (`request::poll` / `response::poll`): poll result,
the working multipart afterwards, the advanced socket, and the effect trace. -/
structure PollRes (α : Type) where
  result : Except Nat (Async α)
  mp : Multipart
  sock : ZSock
  trace : List Ev
deriving DecidableEq

/-- Core A send tick `request::poll` (future_types.rs lines 77-94): arm the
reactor, reconcile with the native mask, then drive the send loop. Note that
the Ready branch returns without notifying the current task. -/
def request.poll (sock : ZSock) (mp : Multipart) : PollRes Unit :=
  let t0 : List Ev := [.filePollWriteReady]
  match pollWriteReadyCheck sock with
  | (.notReady, t1) => { result := .ok .notReady, mp := mp, sock := sock, trace := t0 ++ t1 }
  | (.ready _, t1) =>
    let r := request.send sock mp
    match r.result with
    | .error c =>
      { result := .error c, mp := r.mp, sock := r.sock,
        trace := t0 ++ t1 ++ attemptsTrace r.attempts }
    | .ok (.ready _) =>
      { result := .ok (.ready ()), mp := r.mp, sock := r.sock,
        trace := t0 ++ t1 ++ attemptsTrace r.attempts }
    | .ok .notReady =>
      { result := .ok .notReady, mp := r.mp, sock := r.sock,
        trace := t0 ++ t1 ++ attemptsTrace r.attempts ++ [.clearWriteReady] }

/-- Core A receive loop `response::recv` (future_types.rs lines 110-137): loop
on non-blocking recv, appending each frame to the working multipart; when a
frame's more-flag is false yield the accumulated multipart and reset the
accumulator; on EAGAIN return NotReady keeping the accumulator. -/
structure RecvRes where
  result : Except Nat (Async Multipart)
  mp : Multipart
  sock : ZSock
deriving DecidableEq

def recvLoopA (events : Nat) (sends : List SendOutcome) :
    List RecvOutcome → Multipart → RecvRes
  | [], mp => { result := .ok .notReady, mp := mp, sock := ⟨events, sends, []⟩ }
  | .eagain :: rest, mp =>
    { result := .ok .notReady, mp := mp, sock := ⟨events, sends, rest⟩ }
  | .err c :: rest, mp =>
    { result := .error c, mp := mp, sock := ⟨events, sends, rest⟩ }
  | .msg m :: rest, mp =>
    if m.more then recvLoopA events sends rest (mp ++ [m])
    else { result := .ok (.ready (mp ++ [m])), mp := [], sock := ⟨events, sends, rest⟩ }

def response.recv (sock : ZSock) (mp : Multipart) : RecvRes :=
  recvLoopA sock.events sock.sends sock.recvs mp

/-- Core A receive tick `response::poll` (future_types.rs lines 150-170): arm
the reactor, reconcile with the native mask, drive the receive loop; on Ready
notify the current task (self-scheduled re-poll), on NotReady clear the
read-armed bit. -/
def response.poll (sock : ZSock) (mp : Multipart) : PollRes Multipart :=
  let t0 : List Ev := [.filePollReadReady]
  match pollReadReadyCheck sock with
  | (.notReady, t1) => { result := .ok .notReady, mp := mp, sock := sock, trace := t0 ++ t1 }
  | (.ready _, t1) =>
    let r := response.recv sock mp
    match r.result with
    | .error c => { result := .error c, mp := r.mp, sock := r.sock, trace := t0 ++ t1 }
    | .ok (.ready m) =>
      { result := .ok (.ready m), mp := r.mp, sock := r.sock,
        trace := t0 ++ t1 ++ [.notifyTask] }
    | .ok .notReady =>
      { result := .ok .notReady, mp := r.mp, sock := r.sock,
        trace := t0 ++ t1 ++ [.clearReadReady] }

end AsyncZmq.TokioZmq

namespace AsyncZmq.FuturesZmq

open AsyncZmq

/-- Core B error type (`futures-zmq::Error`), restricted to the variants the
embedded code can produce: a native zmq error code, the reentrancy error
`Error::Polling`, and the oneshot-cancellation error (`From<Canceled>`). -/
inductive Error where
  | zmqErr (code : Nat)
  | polling
  | canceled
deriving DecidableEq

/-- Worker reply sent through a oneshot channel (poll_thread.rs `Response`). -/
inductive Response where
  | sent
  | received (mp : Multipart)
  | full (mp : Multipart)
  | error (e : Error)
deriving DecidableEq

/-- Resolution state of the oneshot reply receiver at the moment it is polled,
supplied by the environment: resolved with a response, still pending, or the
sender was dropped without a reply (futures 0.1 `Canceled`). -/
inductive RxOutcome where
  | ready (r : Response)
  | notReady
  | canceled
deriving DecidableEq

/-- Core B `SendFuture::poll` (poll_thread.rs lines 294-309): map the oneshot
result; `Sent` completes with no returned multipart, `Full` completes returning
the rejected multipart, `Error` fails, a dropped sender fails with the
cancellation error, and a reply of the wrong kind panics (modelled `none`). -/
def SendFuture.poll : RxOutcome → Option (Except Error (Async (Option Multipart)))
  | .ready .sent => some (.ok (.ready none))
  | .ready (.full m) => some (.ok (.ready (some m)))
  | .ready (.error e) => some (.error e)
  | .ready (.received _) => none
  | .notReady => some (.ok .notReady)
  | .canceled => some (.error .canceled)

/-- Core B `RecvFuture::poll` (poll_thread.rs lines 311-329). -/
def RecvFuture.poll : RxOutcome → Option (Except Error (Async Multipart))
  | .ready (.received m) => some (.ok (.ready m))
  | .ready (.error e) => some (.error e)
  | .ready .sent => none
  | .ready (.full _) => none
  | .notReady => some (.ok .notReady)
  | .canceled => some (.error .canceled)

/-- Core B send state machine variants (async_types/future.rs lines 28-33).
`running` stands for `Running(SendFuture)`: the in-flight future's data lives in
the environment oracle, so the constructor carries no payload. -/
inductive SendState where
  | ready
  | pending (mp : Multipart)
  | running
  | polling
deriving DecidableEq

/-- Core B `SendState::poll_fut` (async_types/future.rs lines 40-55), invoked
after the caller has already swapped the state to the `Polling` marker: on the
future completing with a rejected multipart park it as `Pending`; on clean
completion rest at `Ready`; on NotReady keep `Running`; on an error the `?`
operator propagates without restoring the state, leaving the marker in place. -/
def SendState.pollFut (o : RxOutcome) : Option (Except Error (Async Unit) × SendState) :=
  match SendFuture.poll o with
  | none => none
  | some (.error e) => some (.error e, .polling)
  | some (.ok (.ready (some m))) => some (.ok .notReady, .pending m)
  | some (.ok (.ready none)) => some (.ok (.ready ()), .ready)
  | some (.ok .notReady) => some (.ok .notReady, .running)

/-- Core B `SendState::poll_flush` (async_types/future.rs lines 57-70): swap
the state for the `Polling` marker, then dispatch on the previous state;
observing `Polling` on entry is the reentrancy error. A tick starting from
`Pending` first constructs the in-flight future (`sock.send_msg`), whose poll
outcome `o` the environment supplies. -/
def SendState.pollFlush (s : SendState) (o : RxOutcome) :
    Option (Except Error (Async Unit) × SendState) :=
  match s with
  | .ready => some (.ok (.ready ()), .ready)
  | .pending _ => SendState.pollFut o
  | .running => SendState.pollFut o
  | .polling => some (.error .polling, .polling)

/-- Core B receive state machine variants (async_types/future.rs lines 134-138). -/
inductive RecvState where
  | pending
  | running
  | polling
deriving DecidableEq

/-- Core B `RecvState::poll_fut` (async_types/future.rs lines 145-154). -/
def RecvState.pollFut (o : RxOutcome) : Option (Except Error (Async Multipart) × RecvState) :=
  match RecvFuture.poll o with
  | none => none
  | some (.error e) => some (.error e, .polling)
  | some (.ok (.ready m)) => some (.ok (.ready m), .pending)
  | some (.ok .notReady) => some (.ok .notReady, .running)

/-- Core B `RecvState::poll_fetch` (async_types/future.rs lines 156-165). -/
def RecvState.pollFetch (s : RecvState) (o : RxOutcome) :
    Option (Except Error (Async Multipart) × RecvState) :=
  match s with
  | .pending => RecvState.pollFut o
  | .running => RecvState.pollFut o
  | .polling => some (.error .polling, .polling)

/-- Core B one-shot send future `MultipartRequest` (async_types/future.rs
lines 73-113): the send state machine plus the socket handle, which is `none`
once the future has completed and yielded it. -/
structure BMultipartRequest where
  state : SendState
  sock : Option Unit
deriving DecidableEq

/-- Core B `MultipartRequest::poll` (async_types/future.rs lines 102-113):
`self.sock.take().unwrap()` panics (modelled `none`) when the socket was
already yielded; otherwise drive `poll_flush`, restoring the socket only on
NotReady. -/
def BMultipartRequest.poll (r : BMultipartRequest) (o : RxOutcome) :
    Option (Except Error (Async Unit) × BMultipartRequest) :=
  match r.sock with
  | none => none
  | some s =>
    match SendState.pollFlush r.state o with
    | none => none
    | some (.error e, st2) => some (.error e, { state := st2, sock := none })
    | some (.ok (.ready _), st2) => some (.ok (.ready ()), { state := st2, sock := none })
    | some (.ok .notReady, st2) => some (.ok .notReady, { state := st2, sock := some s })

end AsyncZmq.FuturesZmq

namespace AsyncZmq.FuturesZmq

open AsyncZmq

/-- Core B per-socket arm set (poll_thread.rs `PollKind`, lines 93-145). -/
inductive PollKind where
  | sendMsg
  | recvMsg
  | sendRecv
  | unused
deriving DecidableEq

/-- `PollKind::as_events` (poll_thread.rs lines 101-108). -/
def PollKind.asEvents : PollKind → Nat
  | .sendMsg => POLLOUT
  | .recvMsg => POLLIN
  | .sendRecv => POLLIN ||| POLLOUT
  | .unused => 0

/-- `PollKind::is_read` (poll_thread.rs lines 110-112). -/
def PollKind.isRead (k : PollKind) : Bool :=
  k.asEvents &&& POLLIN == POLLIN

/-- `PollKind::is_write` (poll_thread.rs lines 114-116). -/
def PollKind.isWrite (k : PollKind) : Bool :=
  k.asEvents &&& POLLOUT == POLLOUT

/-- `PollKind::read` (poll_thread.rs lines 118-123). -/
def PollKind.read : PollKind → PollKind
  | .sendMsg => .sendRecv
  | _ => .recvMsg

/-- `PollKind::clear_read` (poll_thread.rs lines 125-130). -/
def PollKind.clearRead : PollKind → PollKind
  | .sendRecv => .sendMsg
  | .sendMsg => .sendMsg
  | _ => .unused

/-- `PollKind::write` (poll_thread.rs lines 132-137). -/
def PollKind.write : PollKind → PollKind
  | .recvMsg => .sendRecv
  | _ => .sendMsg

/-- `PollKind::clear_write` (poll_thread.rs lines 139-144). -/
def PollKind.clearWrite : PollKind → PollKind
  | .sendRecv => .recvMsg
  | .recvMsg => .recvMsg
  | _ => .unused

/-- Core B self-pipe channel (poll_thread.rs `Channel`, lines 147-179): the
atomic "unread" flag and the number of bytes currently buffered in the pipe. -/
structure Channel where
  ready : Bool
  pipe : Nat
deriving DecidableEq

/-- `Channel::notify` (poll_thread.rs lines 162-168): write one byte to the
self-pipe only when the atomic flag swaps from false to true. Returns the
channel afterwards and the number of bytes written by this call. -/
def Channel.notify (c : Channel) : Channel × Nat :=
  if c.ready then (c, 0)
  else ({ ready := true, pipe := c.pipe + 1 }, 1)

/-- `Receiver::drain` (poll_thread.rs lines 205-215): read the pipe until it
would block, then clear the flag with an atomic swap, returning whether any
signal was present. -/
def Channel.drain (c : Channel) : Channel × Bool :=
  ({ ready := false, pipe := 0 }, c.ready)

/-- Core B worker requests (poll_thread.rs `Request`, lines 51-57). The reply
senders are implicit: each request's reply disposition is reported by
`ReplyOutcome`. `init` carries the native socket being registered. -/
inductive Request where
  | init (sends : List (SendOutcome × Option Nat)) (recvs : List RecvOutcome)
  | sendMessage (id : Nat) (mp : Multipart) (bufferSize : Nat)
  | receiveMessage (id : Nat)
  | dropSocket (id : Nat)
  | done
deriving DecidableEq

/-- `Sender::send` (poll_thread.rs lines 188-191): enqueue on the mpsc channel,
then notify the self-pipe. Returns the queue, the channel, and the bytes this
call wrote to the pipe. -/
def Sender.send (q : List Request) (c : Channel) (r : Request) :
    List Request × Channel × Nat :=
  (q ++ [r], (Channel.notify c).1, (Channel.notify c).2)

/-- Core B native socket model: oracles for successive send/recv outcomes.
Each send-attempt entry pairs the native send outcome with the result of the
`Message::from_slice` clone computed before the send (poll_thread.rs line 523):
`some code` means that clone failed with that error. The clone result is
inspected only by the EAGAIN arm (lines 548-564). -/
structure ZSockB where
  sends : List (SendOutcome × Option Nat)
  recvs : List RecvOutcome
deriving DecidableEq

/-- Consume the next native send outcome together with its pre-send clone
result (an exhausted oracle means EAGAIN with a successful clone). -/
def sendStepB (sock : ZSockB) : (SendOutcome × Option Nat) × ZSockB :=
  match sock.sends with
  | [] => ((.eagain, none), sock)
  | o :: rest => (o, { sock with sends := rest })

/-- Per-socket worker state (poll_thread.rs `Pollable`, lines 394-401). The
responder slots record only whether a oneshot sender is stored; replies pushed
through them are reported as events. -/
structure Pollable where
  sock : ZSockB
  kind : PollKind
  msg : List Multipart
  pendingRecvMsg : List Multipart
  sendResponder : Bool
  recvResponder : Bool
deriving DecidableEq

/-- `Pollable::new` (poll_thread.rs lines 404-413). -/
def Pollable.new (sock : ZSockB) : Pollable :=
  { sock := sock, kind := .unused, msg := [], pendingRecvMsg := [],
    sendResponder := false, recvResponder := false }

/-- Replies the worker pushes through stored responder channels. -/
inductive WorkerEv where
  | respondedSend (r : Response)
  | respondedRecv (r : Response)
deriving DecidableEq

/-- Result of the worker's receive handler on one socket. -/
structure RecvMsgRes where
  sock : ZSockB
  kind : PollKind
  pendingRecvMsg : List Multipart
  recvResponder : Bool
  evs : List WorkerEv
deriving DecidableEq

/-- Core B worker receive handler `Pollable::recv_msg` (poll_thread.rs lines
460-511): drain the native socket; each completed multipart (frame with
more-flag false) is delivered to the stored recv responder or buffered in the
pending-receive queue; EAGAIN and EFSM clear the read arm and stop. The working
multipart `cur` is a local of the loop: frames accumulated in it when EAGAIN
strikes are discarded with it. -/
def recvMsgGo (sends : List (SendOutcome × Option Nat)) :
    List RecvOutcome → PollKind → List Multipart → Bool → Multipart → RecvMsgRes
  | [], kind, pending, resp, cur =>
    { sock := ⟨sends, []⟩, kind := kind.clearRead, pendingRecvMsg := pending,
      recvResponder := resp, evs := [] }
  | .eagain :: rest, kind, pending, resp, cur =>
    { sock := ⟨sends, rest⟩, kind := kind.clearRead, pendingRecvMsg := pending,
      recvResponder := resp, evs := [] }
  | .err c :: rest, kind, pending, resp, cur =>
    if c = EFSM then
      { sock := ⟨sends, rest⟩, kind := kind.clearRead, pendingRecvMsg := pending,
        recvResponder := resp, evs := [] }
    else if resp then
      { sock := ⟨sends, rest⟩, kind := kind.clearRead, pendingRecvMsg := pending,
        recvResponder := false, evs := [.respondedRecv (.error (.zmqErr c))] }
    else
      { sock := ⟨sends, rest⟩, kind := kind.clearRead, pendingRecvMsg := pending,
        recvResponder := false, evs := [] }
  | .msg m :: rest, kind, pending, resp, cur =>
    if m.more then recvMsgGo sends rest kind pending resp (cur ++ [m])
    else if resp then
      let r := recvMsgGo sends rest kind.clearRead pending false []
      { r with evs := .respondedRecv (.received (cur ++ [m])) :: r.evs }
    else recvMsgGo sends rest kind.clearRead (pending ++ [cur ++ [m]]) resp []

/-- Worker receive handler on a `Pollable`, starting with a fresh working
multipart as the source does. -/
def Pollable.recvMsg (p : Pollable) : Pollable × List WorkerEv :=
  let r := recvMsgGo p.sock.sends p.sock.recvs p.kind p.pendingRecvMsg p.recvResponder []
  let p2 : Pollable :=
    { p with
      sock := r.sock, kind := r.kind, pendingRecvMsg := r.pendingRecvMsg,
      recvResponder := r.recvResponder }
  (p2, r.evs)

/-- Result of the worker's send handler on one socket. -/
structure SendMsgRes where
  sock : ZSockB
  queue : List Multipart
  kind : PollKind
  sendResponder : Bool
  evs : List WorkerEv
  sentOk : List Msg
  attempts : List (Msg × Nat)
  blocked : Bool
  panicked : Bool
deriving DecidableEq

/-- Outcome class of the per-multipart send loop: every frame accepted;
stopped by EAGAIN whose pre-send clone succeeded, with the remaining multipart
(failed frame back at its front); stopped by EAGAIN whose pre-send
`Message::from_slice` clone failed, the frame and the rest of the multipart
dropped; or stopped by a hard send error (the failing frame dropped). -/
inductive PartTag where
  | allSent
  | blocked (restMp : Multipart)
  | cloneFail (code : Nat)
  | hardErr (code : Nat)
deriving DecidableEq

/-- Result of sending the frames of one multipart: the outcome tag, the
advanced socket oracle, the frames the native socket accepted, and every
native send attempt with its flags. -/
structure PartRes where
  tag : PartTag
  sock : ZSockB
  sentOk : List Msg
  attempts : List (Msg × Nat)
deriving DecidableEq

/-- Per-multipart send loop of Core B `Pollable::send_msg` (poll_thread.rs
lines 517-581): pop the head frame, clone it with `Message::from_slice`, send
it with `DONTWAIT` plus `SNDMORE` unless the remainder is empty; on success
continue with the remainder; on EAGAIN, if the clone succeeded push it (a
byte-identical copy of the frame) back onto the front and stop, and if the
clone failed stop with the frame dropped (lines 548-564); on a hard send error
stop with the frame dropped. -/
def sendParts : ZSockB → Multipart → PartRes
  | sock, [] => { tag := .allSent, sock := sock, sentOk := [], attempts := [] }
  | sock, m :: mrest =>
    let flags := DONTWAIT ||| (if mrest.isEmpty then 0 else SNDMORE)
    match sendStepB sock with
    | ((.ok, _), sock2) =>
      let r := sendParts sock2 mrest
      { r with sentOk := m :: r.sentOk, attempts := (m, flags) :: r.attempts }
    | ((.eagain, none), sock2) =>
      { tag := .blocked (m :: mrest), sock := sock2, sentOk := [],
        attempts := [(m, flags)] }
    | ((.eagain, some c), sock2) =>
      { tag := .cloneFail c, sock := sock2, sentOk := [], attempts := [(m, flags)] }
    | ((.err c, _), sock2) =>
      { tag := .hardErr c, sock := sock2, sentOk := [], attempts := [(m, flags)] }

/-- Core B worker send handler `Pollable::send_msg` (poll_thread.rs lines
513-588): drain the queue of multiparts through the per-multipart loop; after
the last multipart completes, clear the write arm and reply `Sent` through the
stored responder (`take().unwrap()` panics when none is stored); on EAGAIN
with a successful clone push the remaining multipart back onto the front of
the queue and stop with the write arm still set; on EAGAIN with a failed clone
drop the multipart, clear the write arm and reply with the clone error; on a
hard error reply with the error. An empty multipart popped from the queue is
silently discarded. -/
def sendMsgGo : ZSockB → List Multipart → Bool → PollKind → SendMsgRes
  | sock, [], resp, kind =>
    { sock := sock, queue := [], kind := kind.clearWrite, sendResponder := resp,
      evs := [], sentOk := [], attempts := [], blocked := false, panicked := false }
  | sock, [] :: qrest, resp, kind => sendMsgGo sock qrest resp kind
  | sock, (m :: mrest) :: qrest, resp, kind =>
    match sendParts sock (m :: mrest) with
    | { tag := .blocked restMp, sock := sock2, sentOk := sent, attempts := att } =>
      { sock := sock2, queue := restMp :: qrest, kind := kind, sendResponder := resp,
        evs := [], sentOk := sent, attempts := att, blocked := true, panicked := false }
    | { tag := .cloneFail c, sock := sock2, sentOk := sent, attempts := att } =>
      if resp then
        { sock := sock2, queue := qrest, kind := kind.clearWrite, sendResponder := false,
          evs := [.respondedSend (.error (.zmqErr c))], sentOk := sent, attempts := att,
          blocked := false, panicked := false }
      else
        { sock := sock2, queue := qrest, kind := kind.clearWrite, sendResponder := false,
          evs := [], sentOk := sent, attempts := att, blocked := false, panicked := true }
    | { tag := .hardErr c, sock := sock2, sentOk := sent, attempts := att } =>
      if resp then
        { sock := sock2, queue := qrest, kind := kind.clearWrite, sendResponder := false,
          evs := [.respondedSend (.error (.zmqErr c))], sentOk := sent, attempts := att,
          blocked := false, panicked := false }
      else
        { sock := sock2, queue := qrest, kind := kind.clearWrite, sendResponder := false,
          evs := [], sentOk := sent, attempts := att, blocked := false, panicked := true }
    | { tag := .allSent, sock := sock2, sentOk := sent, attempts := att } =>
      match qrest with
      | [] =>
        if resp then
          { sock := sock2, queue := [], kind := kind.clearWrite, sendResponder := false,
            evs := [.respondedSend .sent], sentOk := sent, attempts := att,
            blocked := false, panicked := false }
        else
          { sock := sock2, queue := [], kind := kind.clearWrite, sendResponder := false,
            evs := [], sentOk := sent, attempts := att, blocked := false, panicked := true }
      | q1 :: qmore =>
        let r := sendMsgGo sock2 (q1 :: qmore) resp kind
        { r with sentOk := sent ++ r.sentOk, attempts := att ++ r.attempts }

/-- Worker send handler on a `Pollable`. -/
def Pollable.sendMsg (p : Pollable) : Pollable × List WorkerEv × Bool :=
  let r := sendMsgGo p.sock p.msg p.sendResponder p.kind
  let p2 : Pollable :=
    { p with
      sock := r.sock, msg := r.queue, kind := r.kind,
      sendResponder := r.sendResponder }
  (p2, r.evs, r.panicked)

end AsyncZmq.FuturesZmq

namespace AsyncZmq.FuturesZmq

open AsyncZmq

/-- Association-list lookup mirroring `BTreeMap::get` on the worker's socket
map (keys are unique by construction: ids are assigned monotonically). -/
def lookupSock (id : Nat) : List (Nat × Pollable) → Option Pollable
  | [] => none
  | (i, p) :: rest => if i = id then some p else lookupSock id rest

/-- Association-list pointwise update mirroring `BTreeMap::get_mut`. -/
def updateSock (id : Nat) (f : Pollable → Pollable) :
    List (Nat × Pollable) → List (Nat × Pollable)
  | [] => []
  | (i, p) :: rest =>
    if i = id then (i, f p) :: rest else (i, p) :: updateSock id f rest

/-- Ordered insertion mirroring `BTreeMap::insert`. -/
def insertSock (id : Nat) (p : Pollable) : List (Nat × Pollable) → List (Nat × Pollable)
  | [] => [(id, p)]
  | (i, q) :: rest =>
    if id < i then (id, p) :: (i, q) :: rest
    else if id = i then (id, p) :: rest
    else (i, q) :: insertSock id p rest

/-- Removal mirroring `BTreeMap::remove`. -/
def removeSock (id : Nat) : List (Nat × Pollable) → List (Nat × Pollable)
  | [] => []
  | (i, p) :: rest => if i = id then rest else (i, p) :: removeSock id rest

/-- Disposition of a request's reply sender after `handle_request`: answered
immediately, stored in the pollable for later, dropped without a reply (the
caller will observe oneshot cancellation), or the request carried no reply
sender at all. -/
inductive ReplyOutcome where
  | repliedSockId (id : Nat)
  | replied (r : Response)
  | stored
  | droppedResponder
  | noResponder
deriving DecidableEq

/-- Core B worker thread state (poll_thread.rs `PollThread`, lines 617-626),
with the self-pipe channel, the request queue standing for the mpsc channel,
and a ghost counter of completed turns. -/
structure PollThreadState where
  nextSockId : Nat
  shouldStop : Bool
  sockets : List (Nat × Pollable)
  channel : Channel
  requestQueue : List Request
  turns : Nat
  panicked : Bool
deriving DecidableEq

/-- Core B `PollThread::handle_request` (poll_thread.rs lines 663-711). For
`SendMessage`/`ReceiveMessage` the socket map is consulted with `get_mut(&id)`;
when the id is absent the `Option::map` does nothing and the responder moved
into the closure is dropped. A `SendMessage` on a full per-socket buffer
(`Pollable::message`, lines 443-450) is answered `Full` with the rejected
multipart; otherwise it is enqueued, the write direction armed and the
responder stored. `Done` only sets the should-stop flag. -/
def handleRequest (st : PollThreadState) (req : Request) :
    PollThreadState × ReplyOutcome :=
  match req with
  | .init sends recvs =>
    let id := st.nextSockId
    ({ st with
       sockets := insertSock id (Pollable.new { sends := sends, recvs := recvs }) st.sockets,
       nextSockId := id + 1 }, .repliedSockId id)
  | .sendMessage id mp bs =>
    match lookupSock id st.sockets with
    | none => (st, .droppedResponder)
    | some p =>
      if p.msg.length < bs then
        ({ st with
           sockets := updateSock id
             (fun q => { q with msg := q.msg ++ [mp], kind := q.kind.write,
                                sendResponder := true }) st.sockets }, .stored)
      else (st, .replied (.full mp))
  | .receiveMessage id =>
    match lookupSock id st.sockets with
    | none => (st, .droppedResponder)
    | some p =>
      match p.pendingRecvMsg with
      | mp :: rest =>
        ({ st with
           sockets := updateSock id
             (fun q => { q with pendingRecvMsg := rest }) st.sockets },
         .replied (.received mp))
      | [] =>
        ({ st with
           sockets := updateSock id
             (fun q => { q with recvResponder := true, kind := q.kind.read })
             st.sockets }, .stored)
  | .dropSocket id => ({ st with sockets := removeSock id st.sockets }, .noResponder)
  | .done => ({ st with shouldStop := true }, .noResponder)

/-- Loop body of `PollThread::try_recv` (poll_thread.rs lines 650-661): handle
queued requests in order, stopping early once the should-stop flag is set. -/
def drainGo : List Request → PollThreadState → PollThreadState × List ReplyOutcome
  | [], st => (st, [])
  | r :: rest, st =>
    let h := handleRequest st r
    if h.1.shouldStop then ({ h.1 with requestQueue := rest }, [h.2])
    else
      let rec2 := drainGo rest h.1
      (rec2.1, h.2 :: rec2.2)

/-- Core B `PollThread::try_recv` (poll_thread.rs lines 650-661): drain the
self-pipe; only when a signal was present handle the queued requests. -/
def tryRecv (st : PollThreadState) : PollThreadState × List ReplyOutcome :=
  let d := Channel.drain st.channel
  let st1 := { st with channel := d.1 }
  if d.2 then drainGo st1.requestQueue { st1 with requestQueue := [] }
  else (st1, [])

/-- Core B `PollThread::drop_inactive` (poll_thread.rs lines 726-744): poll
each stored responder for cancellation (the oracle `cancels` maps a socket id
to whether its send / recv reply receiver has been dropped) and discard the
cancelled ones. -/
def dropInactive (cancels : Nat → Bool × Bool) (st : PollThreadState) : PollThreadState :=
  { st with
    sockets := st.sockets.map (fun e =>
      (e.1, { e.2 with
              sendResponder := e.2.sendResponder && !(cancels e.1).1,
              recvResponder := e.2.recvResponder && !(cancels e.1).2 })) }

/-- A scheduled worker action (poll_thread.rs `Action`, lines 612-615). -/
inductive Action where
  | snd (id : Nat)
  | rcv (id : Nat)
deriving DecidableEq

/-- `Pollable::is_writable` specialised to a revents word (poll_thread.rs lines
423-425): the socket is armed for write and the poll item reports POLLOUT. -/
def isWritableAt (sockets : List (Nat × Pollable)) (id : Nat) (rev : Nat) : Bool :=
  match lookupSock id sockets with
  | none => false
  | some p => p.kind.isWrite && (rev &&& POLLOUT == POLLOUT)

/-- `Pollable::is_readable` specialised to a revents word (poll_thread.rs lines
419-421). -/
def isReadableAt (sockets : List (Nat × Pollable)) (id : Nat) (rev : Nat) : Bool :=
  match lookupSock id sockets with
  | none => false
  | some p => p.kind.isRead && (rev &&& POLLIN == POLLIN)

/-- Scheduling loop of `PollThread::poll` (poll_thread.rs lines 774-801):
walk the (id, revents) pairs in map order, pushing at most one action per
socket — send whenever the write direction fired, else receive — and counting
accounted events; break once the count reaches the number of signalled items. -/
def scheduleGo (sockets : List (Nat × Pollable)) :
    List (Nat × Nat) → Nat → Nat → List Action
  | [], _, _ => []
  | (id, rev) :: rest, count, num =>
    let step : List Action × Nat :=
      if isWritableAt sockets id rev then ([.snd id], count + 1)
      else if isReadableAt sockets id rev then ([.rcv id], count + 1)
      else ([], count)
    if num ≤ step.2 then step.1
    else step.1 ++ scheduleGo sockets rest step.2 num

/-- Number of poll items with non-zero revents: the value `zmq::poll` returns
(the self-pipe item is polled for POLLIN and is the last item). -/
def numSignalled (pairs : List (Nat × Nat)) (pipeRev : Nat) : Nat :=
  pairs.countP (fun pr => pr.2 != 0) + (if pipeRev != 0 then 1 else 0)

/-- Action schedule of one wake of `PollThread::poll` (poll_thread.rs lines
769-801): the self-pipe signal is counted first if its item is readable. -/
def schedule (sockets : List (Nat × Pollable)) (pairs : List (Nat × Nat))
    (pipeRev : Nat) : List Action :=
  let num := numSignalled pairs pipeRev
  let count0 := if 0 < num ∧ pipeRev &&& POLLIN == POLLIN then 1 else 0
  scheduleGo sockets pairs count0 num

/-- One action per socket whose poll result matches its arm, send preferred:
the schedule the specification describes. -/
def canonicalSchedule (sockets : List (Nat × Pollable)) (pairs : List (Nat × Nat)) :
    List Action :=
  pairs.filterMap (fun pr =>
    if isWritableAt sockets pr.1 pr.2 then some (.snd pr.1)
    else if isReadableAt sockets pr.1 pr.2 then some (.rcv pr.1)
    else none)

/-- Execute one drained action (poll_thread.rs lines 803-816). -/
def executeAction (sockets : List (Nat × Pollable)) (a : Action) :
    List (Nat × Pollable) × List WorkerEv × Bool :=
  match a with
  | .rcv id =>
    match lookupSock id sockets with
    | none => (sockets, [], false)
    | some p =>
      let r := p.recvMsg
      (updateSock id (fun _ => r.1) sockets, r.2, false)
  | .snd id =>
    match lookupSock id sockets with
    | none => (sockets, [], false)
    | some p =>
      let r := p.sendMsg
      (updateSock id (fun _ => r.1) sockets, r.2.1, r.2.2)

/-- Execute drained actions in order. -/
def executeActions (acts : List Action) (sockets : List (Nat × Pollable)) :
    List (Nat × Pollable) × List WorkerEv × Bool :=
  match acts with
  | [] => (sockets, [], false)
  | a :: rest =>
    let r := executeAction sockets a
    let r2 := executeActions rest r.1
    (r2.1, r.2.1 ++ r2.2.1, r.2.2 || r2.2.2)

/-- Core B `PollThread::poll` (poll_thread.rs lines 746-817): build the poll
items from the current arms, wake with the environment-given revents (the
oracle `revents` gives each socket's raw readiness; zmq reports only requested
events, hence the mask with the armed events), schedule the actions, and drain
them in reverse (LIFO) order. Returns the new state, the execution order, and
the delivered replies. -/
def pollPhase (revents : Nat → Nat) (pipeRev : Nat) (st : PollThreadState) :
    PollThreadState × List Action × List WorkerEv :=
  let pairs := st.sockets.map (fun e => (e.1, revents e.1 &&& e.2.kind.asEvents))
  let acts := schedule st.sockets pairs pipeRev
  let execOrder := acts.reverse
  let r := executeActions execOrder st.sockets
  ({ st with sockets := r.1, panicked := st.panicked || r.2.2 }, execOrder, r.2.1)

/-- Environment of one worker turn: cancellation states, raw socket readiness
and the self-pipe item's revents at the poll wake. -/
structure TurnEnv where
  cancels : Nat → Bool × Bool
  revents : Nat → Nat
  pipeRev : Nat

/-- Core B `PollThread::turn` (poll_thread.rs lines 819-823):
drop-inactive, then drain requests, then poll; the ghost turn counter
increments once per call. -/
def turn (env : TurnEnv) (st : PollThreadState) : PollThreadState :=
  let st1 := dropInactive env.cancels st
  let st2 := (tryRecv st1).1
  let st3 := (pollPhase env.revents env.pipeRev st2).1
  { st3 with turns := st3.turns + 1 }

/-- Core B `PollThread::run` (poll_thread.rs lines 644-648) is the unconditional
`loop { self.turn(); }`: this models its first `envs.length` iterations. The
loop body tests no exit condition, so every provided iteration runs. -/
def run : List TurnEnv → PollThreadState → PollThreadState
  | [], st => st
  | e :: rest, st => run rest (turn e st)

end AsyncZmq.FuturesZmq

namespace AsyncZmq

/-- futures 0.1 `AsyncSink`: item accepted, or rejected with the unmodified
item (back-pressure). -/
inductive AsyncSink where
  | accepted
  | notReadySink (mp : Multipart)
deriving DecidableEq

/-- Frames of a multipart paired with the flags the send loops compute for
them: `DONTWAIT`, plus `SNDMORE` exactly when frames remain after the one
popped. -/
def flagged : Multipart → List (Msg × Nat)
  | [] => []
  | m :: rest => (m, DONTWAIT ||| (if rest.isEmpty then 0 else SNDMORE)) :: flagged rest

/-- `flagged` extended over a queue of multiparts. -/
def flaggedQ : List Multipart → List (Msg × Nat)
  | [] => []
  | mp :: rest => flagged mp ++ flaggedQ rest

/-- All frames of a queue of multiparts, in order. -/
def frames : List Multipart → List Msg
  | [] => []
  | mp :: rest => mp ++ frames rest

/-- The run of frames a receive loop consumes without completing a multipart:
the longest oracle prefix of frames whose more-flag is true. -/
def moreRun : List RecvOutcome → List Msg
  | .msg m :: rest => if m.more then m :: moreRun rest else []
  | _ => []

end AsyncZmq

namespace AsyncZmq.TokioZmq

open AsyncZmq

/-- Result of Core A sink operations: the poll result, the pending queue
afterwards, and the advanced socket. -/
structure ASinkRes where
  result : Except Nat (Async Unit)
  pending : List Multipart
  sock : ZSock
deriving DecidableEq

/-- Core A `SinkType::poll_complete` (sink_type.rs lines 73-89): pop pending
multiparts and drive each through `request::poll`; on NotReady push the
partially-sent multipart back to the front and stop; an error propagates with
the failing multipart dropped from the queue (the `?` operator fires after the
pop). -/
def pollCompleteA : ZSock → List Multipart → ASinkRes
  | sock, [] => { result := .ok (.ready ()), pending := [], sock := sock }
  | sock, mp :: rest =>
    let r := request.poll sock mp
    match r.result with
    | .error c => { result := .error c, pending := rest, sock := r.sock }
    | .ok (.ready _) => pollCompleteA r.sock rest
    | .ok .notReady =>
      { result := .ok .notReady, pending := r.mp :: rest, sock := r.sock }

/-- Core A `SinkType::start_send` (sink_type.rs lines 56-71): drive
`poll_complete` first, then reject with the unmodified multipart only when the
queue is non-empty and strictly longer than `buffer_size`; otherwise append. -/
def startSendA (bs : Nat) (sock : ZSock) (pending : List Multipart) (mp : Multipart) :
    Except Nat AsyncSink × List Multipart × ZSock :=
  let r := pollCompleteA sock pending
  match r.result with
  | .error c => (.error c, r.pending, r.sock)
  | .ok _ =>
    if 0 < r.pending.length ∧ bs < r.pending.length then
      (.ok (.notReadySink mp), r.pending, r.sock)
    else (.ok .accepted, r.pending ++ [mp], r.sock)

/-- Core A one-shot send future `MultipartRequest::poll` (future.rs lines
96-107): the socket slot is `take`n; when it is already `none` (the future
completed and yielded its socket) the poll fails with `Error::Reused`; the
slot is restored only on NotReady. -/
def AMultipartRequest.poll (socks : Option ZSock) (mp : Multipart) :
    Except AError (Async ZSock) × Option ZSock × Multipart :=
  match socks with
  | none => (.error .reused, none, mp)
  | some sock =>
    let r := request.poll sock mp
    match r.result with
    | .error c => (.error (.zmqErr c), none, r.mp)
    | .ok (.ready _) => (.ok (.ready r.sock), none, r.mp)
    | .ok .notReady => (.ok .notReady, some r.sock, r.mp)

end AsyncZmq.TokioZmq

namespace AsyncZmq.FuturesZmq

open AsyncZmq

/-- Head of the reply-resolution oracle; an exhausted oracle stands for a
reply channel that has not resolved yet. -/
def takeOutcome : List RxOutcome → RxOutcome × List RxOutcome
  | [] => (.notReady, [])
  | o :: rest => (o, rest)

/-- `SendState::poll_flush` threading a list oracle of reply resolutions: a
tick that actually polls an in-flight future consumes one oracle entry. -/
def pollFlushL (s : SendState) (or : List RxOutcome) :
    Option (Except Error (Async Unit) × SendState × List RxOutcome) :=
  match s with
  | .ready => some (.ok (.ready ()), .ready, or)
  | .polling => some (.error .polling, .polling, or)
  | .pending _ =>
    let t := takeOutcome or
    (SendState.pollFut t.1).map (fun rs => (rs.1, rs.2, t.2))
  | .running =>
    let t := takeOutcome or
    (SendState.pollFut t.1).map (fun rs => (rs.1, rs.2, t.2))

/-- Queue-draining loop of Core B `MultipartSink::poll_complete` (sink.rs lines
86-89): seed the state with the next buffered multipart and re-drive until the
buffer is empty or a flush is not ready. -/
def drainQueueB (q : List Multipart) (st : SendState) (or : List RxOutcome) :
    Option (Except Error (Async Unit) × SendState × List Multipart × List RxOutcome) :=
  match q with
  | [] => some (.ok (.ready ()), st, [], or)
  | mp :: rest =>
    match pollFlushL (.pending mp) or with
    | none => none
    | some (.error e, st2, or2) => some (.error e, st2, rest, or2)
    | some (.ok .notReady, st2, or2) => some (.ok .notReady, st2, rest, or2)
    | some (.ok (.ready _), st2, or2) => drainQueueB rest st2 or2

/-- Core B `MultipartSink::poll_complete` (sink.rs lines 83-92): flush the
active send state, then drain the buffered queue. -/
def pollCompleteB (st : SendState) (q : List Multipart) (or : List RxOutcome) :
    Option (Except Error (Async Unit) × SendState × List Multipart × List RxOutcome) :=
  match pollFlushL st or with
  | none => none
  | some (.error e, st2, or2) => some (.error e, st2, q, or2)
  | some (.ok .notReady, st2, or2) => some (.ok .notReady, st2, q, or2)
  | some (.ok (.ready _), st2, or2) => drainQueueB q st2 or2

/-- Core B `MultipartSink::start_send` (sink.rs lines 69-81): drive
`poll_complete` first; reject with the unmodified multipart when the buffered
queue has reached `buffer_size`, otherwise append. -/
def startSendB (bs : Nat) (st : SendState) (q : List Multipart) (or : List RxOutcome)
    (mp : Multipart) :
    Option (Except Error AsyncSink × SendState × List Multipart × List RxOutcome) :=
  match pollCompleteB st q or with
  | none => none
  | some (.error e, st2, q2, or2) => some (.error e, st2, q2, or2)
  | some (.ok _, st2, q2, or2) =>
    if bs ≤ q2.length then some (.ok (.notReadySink mp), st2, q2, or2)
    else some (.ok .accepted, st2, q2 ++ [mp], or2)

/-- Iterated `Channel::notify`: the channel afterwards and the total number of
bytes written to the self-pipe. -/
def notifyN : Nat → Channel → Channel × Nat
  | 0, c => (c, 0)
  | n + 1, c =>
    let s := Channel.notify c
    let r := notifyN n s.1
    (r.1, s.2 + r.2)

/-- Iterated `Sender::send` over a batch of requests: the queue and channel
afterwards and the total bytes written to the self-pipe. -/
def sendAll : List Request → List Request → Channel → List Request × Channel × Nat
  | [], q, c => (q, c, 0)
  | r :: rs, q, c =>
    let s := Sender.send q c r
    let t := sendAll rs s.1 s.2.1
    (t.1, t.2.1, s.2.2 + t.2.2)

end AsyncZmq.FuturesZmq

namespace AsyncZmq

open AsyncZmq.TokioZmq
open AsyncZmq.FuturesZmq

/-- A sample frame whose more-flag is set (not the end of its multipart). -/
def lostFrame : Msg := { data := [7], more := true }

/-- A worker-side socket about to lose a frame: the native oracle yields one
frame with the more-flag set, then EAGAIN; a recv responder is stored. -/
def lossyPollable : Pollable :=
  { sock := { sends := [], recvs := [.msg lostFrame, .eagain] }, kind := .recvMsg,
    msg := [], pendingRecvMsg := [], sendResponder := false, recvResponder := true }

/-- A Core A socket that is not ready in either direction. -/
def sockNotReady : TokioZmq.ZSock := { events := 0, sends := [], recvs := [] }

/-- Sample single-frame multiparts. -/
def mpA : Multipart := [{ data := [10], more := false }]

def mpB : Multipart := [{ data := [11], more := false }]

def mpC : Multipart := [{ data := [12], more := false }]

/-- A fresh Core B worker state with no sockets. -/
def emptyWorker : PollThreadState :=
  { nextSockId := 0, shouldStop := false, sockets := [],
    channel := { ready := false, pipe := 0 }, requestQueue := [], turns := 0,
    panicked := false }

end AsyncZmq

namespace AsyncZmq.FuturesZmq

open AsyncZmq

theorem notify_of_ready (c : Channel) (h : c.ready = true) : Channel.notify c = (c, 0) := by
  simp [Channel.notify, h]

theorem sendAll_of_ready : ∀ rs q c, c.ready = true → sendAll rs q c = (q ++ rs, c, 0)
  | [], q, c, h => by simp [sendAll]
  | r :: rs, q, c, h => by
    simp [sendAll, Sender.send, notify_of_ready c h, sendAll_of_ready rs (q ++ [r]) c h]

/-- C9: the sender of a request writes a byte to the self-pipe only when the
atomic ready flag swaps from false to true, so a batch of sends with no
intervening drain writes at most one byte total (exactly `min n 1`); the
worker's drain empties the pipe, clears the flag, and reports a signal exactly
when at least one notification happened since the previous drain. -/
theorem c9_wakeup_coalescing :
    (∀ c, (Channel.notify c).2 = if c.ready then 0 else 1)
    ∧ (∀ rs q c, c.ready = false →
        (sendAll rs q c).2.2 = min rs.length 1
        ∧ (sendAll rs q c).1 = q ++ rs
        ∧ (Channel.drain (sendAll rs q c).2.1).2 = decide (rs ≠ [])
        ∧ (Channel.drain (sendAll rs q c).2.1).1 = { ready := false, pipe := 0 }) := by
  constructor
  · intro c
    by_cases h : c.ready <;> simp [Channel.notify, h]
  · intro rs q c h
    cases rs with
    | nil => simp [sendAll, Channel.drain, h]
    | cons r rs2 =>
      have hsend : Channel.notify c = ({ ready := true, pipe := c.pipe + 1 }, 1) := by
        simp [Channel.notify, h]
      have hrest := sendAll_of_ready rs2 (q ++ [r]) { ready := true, pipe := c.pipe + 1 } rfl
      refine ⟨?_, ?_, ?_, ?_⟩ <;>
        simp [sendAll, Sender.send, hsend, hrest, Channel.drain]

/-- Witness for C9 at two back-to-back sends from a drained channel. -/
theorem c9_wakeup_coalescing_witness :
    (sendAll [Request.done, Request.done] [] { ready := false, pipe := 0 }).2.2 = 1
    ∧ (Channel.drain
        (sendAll [Request.done, Request.done] [] { ready := false, pipe := 0 }).2.1).2
        = true := by
  have h := c9_wakeup_coalescing
  have h2 := h.2 [Request.done, Request.done] [] { ready := false, pipe := 0 } rfl
  exact ⟨h2.1.trans (by decide), h2.2.2.1.trans (by decide)⟩

/-- C5 counterexample: a non-reentrant send tick (entered in the `Pending`
resting state) whose inner future poll yields an error returns with the state
still equal to the `Polling` marker — the marker is not replaced by a valid
resting state before the tick returns, contrary to the claim. -/
theorem c5_counterexample :
    SendState.pending [{ data := [0], more := false }] ≠ SendState.polling
    ∧ SendState.pollFlush (.pending [{ data := [0], more := false }])
        (.ready (.error (.zmqErr 1)))
        = some (.error (.zmqErr 1), SendState.polling) := by
  exact ⟨by decide, rfl⟩

theorem sendPollFut_resting (o : RxOutcome) (r : Async Unit)
    (s2 : SendState) (h : SendState.pollFut o = some (.ok r, s2)) : s2 ≠ .polling := by
  cases o with
  | notReady =>
    simp [SendState.pollFut, SendFuture.poll] at h
    simp [← h.2]
  | canceled => simp [SendState.pollFut, SendFuture.poll] at h
  | ready resp =>
    cases resp with
    | sent =>
      simp [SendState.pollFut, SendFuture.poll] at h
      simp [← h.2]
    | received mp => simp [SendState.pollFut, SendFuture.poll] at h
    | full mp =>
      simp [SendState.pollFut, SendFuture.poll] at h
      simp [← h.2]
    | error e => simp [SendState.pollFut, SendFuture.poll] at h

theorem recvPollFut_resting (o : RxOutcome) (r : Async Multipart)
    (s2 : RecvState) (h : RecvState.pollFut o = some (.ok r, s2)) : s2 ≠ .polling := by
  cases o with
  | notReady =>
    simp [RecvState.pollFut, RecvFuture.poll] at h
    simp [← h.2]
  | canceled => simp [RecvState.pollFut, RecvFuture.poll] at h
  | ready resp =>
    cases resp with
    | sent => simp [RecvState.pollFut, RecvFuture.poll] at h
    | received mp =>
      simp [RecvState.pollFut, RecvFuture.poll] at h
      simp [← h.2]
    | full mp => simp [RecvState.pollFut, RecvFuture.poll] at h
    | error e => simp [RecvState.pollFut, RecvFuture.poll] at h

/-- C5 (amended): a tick entered on the `Polling` marker fails with the
reentrancy error for both state machines; a non-reentrant tick that returns
Ready or NotReady always replaces the marker with a valid resting state; only
a tick that returns an error leaves the marker in place (so any later poll of
that future fails with the reentrancy error rather than corrupting frames). -/
theorem c5_reentrancy_guard :
    (∀ o, SendState.pollFlush .polling o = some (.error .polling, .polling))
    ∧ (∀ o, RecvState.pollFetch .polling o = some (.error .polling, .polling))
    ∧ (∀ s o r s2, s ≠ .polling →
        SendState.pollFlush s o = some (.ok r, s2) → s2 ≠ .polling)
    ∧ (∀ s o r s2, s ≠ .polling →
        RecvState.pollFetch s o = some (.ok r, s2) → s2 ≠ .polling) := by
  refine ⟨fun o => rfl, fun o => rfl, ?_, ?_⟩
  · intro s o r s2 hs h
    cases s with
    | ready =>
      simp [SendState.pollFlush] at h
      simp [← h.2]
    | pending mp => exact sendPollFut_resting o r s2 h
    | running => exact sendPollFut_resting o r s2 h
    | polling => exact absurd rfl hs
  · intro s o r s2 hs h
    cases s with
    | pending => exact recvPollFut_resting o r s2 h
    | running => exact recvPollFut_resting o r s2 h
    | polling => exact absurd rfl hs

/-- Witness for C5 at concrete ticks: a reentrant send tick errors, and a
non-reentrant tick resting afterwards in `Running` is not the marker. -/
theorem c5_reentrancy_guard_witness :
    SendState.pollFlush .polling .notReady = some (.error .polling, .polling)
    ∧ SendState.running ≠ SendState.polling := by
  refine ⟨c5_reentrancy_guard.1 .notReady, ?_⟩
  exact c5_reentrancy_guard.2.2.1 (.pending []) .notReady .notReady .running
    (by decide) rfl

/-- C4 counterexample: Core B's `MultipartRequest`, polled again after it
completed and yielded its socket (socket slot `none`), panics on
`self.sock.take().unwrap()` (modelled `none`) instead of returning the reuse
error the claim promises for both cores. -/
theorem c4_counterexample :
    BMultipartRequest.poll { state := .ready, sock := none } .notReady = none := rfl

end AsyncZmq.FuturesZmq

namespace AsyncZmq.TokioZmq

open AsyncZmq
open AsyncZmq.FuturesZmq

/-- C4 (amended): polling a completed one-shot send future again yields the
reuse error in Core A (`Error::Reused`), while in Core B it panics (unwrap of
the taken socket slot), an abort of the task rather than an ordinary error. -/
theorem c4_reuse_error :
    (∀ mp, (AMultipartRequest.poll none mp).1 = .error .reused)
    ∧ (∀ st o, BMultipartRequest.poll { state := st, sock := none } o = none) := by
  exact ⟨fun mp => rfl, fun st o => rfl⟩

end AsyncZmq.TokioZmq

namespace AsyncZmq.FuturesZmq

open AsyncZmq

/-- C10: a `SendMessage` or `ReceiveMessage` whose socket id is absent from the
worker's map leaves the worker state unchanged and drops the reply sender
without answering or panicking (the `Option::map` on the missing entry does
nothing), and a send/receive future whose oneshot sender was dropped observes
the cancellation error instead of hanging. -/
theorem c10_unknown_id :
    ∀ st id mp bs, lookupSock id st.sockets = none →
      handleRequest st (.sendMessage id mp bs) = (st, .droppedResponder)
      ∧ handleRequest st (.receiveMessage id) = (st, .droppedResponder)
      ∧ SendFuture.poll .canceled = some (.error .canceled)
      ∧ RecvFuture.poll .canceled = some (.error .canceled) := by
  intro st id mp bs h
  refine ⟨?_, ?_, rfl, rfl⟩ <;> simp [handleRequest, h]

/-- Witness for C10: a send and a receive for id 5 on a worker with no
sockets. -/
theorem c10_unknown_id_witness :
    handleRequest emptyWorker (.sendMessage 5 mpA 1) = (emptyWorker, .droppedResponder)
    ∧ handleRequest emptyWorker (.receiveMessage 5) = (emptyWorker, .droppedResponder) := by
  have h := c10_unknown_id emptyWorker 5 mpA 1 rfl
  exact ⟨h.1, h.2.1⟩

theorem handleRequest_turns (st : PollThreadState) (r : Request) :
    (handleRequest st r).1.turns = st.turns := by
  cases r <;> simp only [handleRequest] <;> (repeat' split) <;> rfl

theorem drainGo_turns : ∀ q st, (drainGo q st).1.turns = st.turns
  | [], st => rfl
  | r :: rest, st => by
    simp only [drainGo]
    split
    · exact handleRequest_turns st r
    · exact (drainGo_turns rest (handleRequest st r).1).trans (handleRequest_turns st r)

theorem tryRecv_turns (st : PollThreadState) : (tryRecv st).1.turns = st.turns := by
  simp only [tryRecv]
  split
  · exact drainGo_turns st.requestQueue _
  · rfl

theorem turn_turns (env : TurnEnv) (st : PollThreadState) :
    (turn env st).turns = st.turns + 1 := by
  simp only [turn]
  have h : (tryRecv (dropInactive env.cancels st)).1.turns = st.turns :=
    (tryRecv_turns (dropInactive env.cancels st)).trans rfl
  simpa using h

/-- C2: handling `Done` does set the worker's should-stop flag, but the
worker's `run` is the unconditional `loop { self.turn(); }` — it tests no exit
condition, so the loop performs a turn on every iteration even from a state
whose should-stop flag is already set; the worker never stops. -/
theorem c2_done_sets_flag_loop_never_exits :
    (∀ st, (handleRequest st .done).1.shouldStop = true)
    ∧ (∀ envs st, (run envs st).turns = st.turns + envs.length)
    ∧ (∀ (env : TurnEnv) (st : PollThreadState),
        (turn env { st with shouldStop := true }).turns = st.turns + 1) := by
  refine ⟨fun st => rfl, ?_, ?_⟩
  · intro envs
    induction envs with
    | nil => intro st; simp [run]
    | cons e rest ih =>
      intro st
      have h := ih (turn e st)
      simp only [run] at h ⊢
      rw [h, turn_turns]
      simp [Nat.add_assoc, Nat.add_comm 1 rest.length]
  · intro env st
    exact turn_turns env { st with shouldStop := true }

end AsyncZmq.FuturesZmq

namespace AsyncZmq.TokioZmq

open AsyncZmq

theorem notify_not_in_attemptsTrace (l : List (Msg × Nat)) :
    Ev.notifyTask ∉ attemptsTrace l := by
  simp [attemptsTrace]

/-- C7 counterexample: a Core A send tick that completes Ready on a writable
socket performs no task notification — its effect trace contains no
`notify`, contrary to the claim that both the send and the receive path
self-schedule a re-poll on Ready. -/
theorem c7_counterexample :
    (request.poll { events := POLLOUT, sends := [.ok], recvs := [] }
        [{ data := [1], more := false }]).result = .ok (.ready ())
    ∧ Ev.notifyTask ∉ (request.poll { events := POLLOUT, sends := [.ok], recvs := [] }
        [{ data := [1], more := false }]).trace := by
  exact ⟨rfl, by decide⟩

/-- C7 (amended): in Core A only the receive path self-schedules: a receive
tick that completes Ready notifies the current task before returning, while a
send tick never notifies the current task, whatever its outcome. -/
theorem c7_notify_only_on_receive :
    (∀ sock mp, Ev.notifyTask ∉ (request.poll sock mp).trace)
    ∧ (∀ sock mp m, (response.poll sock mp).result = .ok (.ready m) →
        Ev.notifyTask ∈ (response.poll sock mp).trace) := by
  constructor
  · intro sock mp
    by_cases hc : (sock.events &&& POLLOUT == POLLOUT) = true
    · rcases h : (request.send sock mp).result with c | a
      · simp [request.poll, pollWriteReadyCheck, hc, h, notify_not_in_attemptsTrace]
      · cases a <;>
          simp [request.poll, pollWriteReadyCheck, hc, h, notify_not_in_attemptsTrace]
    · simp [request.poll, pollWriteReadyCheck, hc]
  · intro sock mp m hres
    by_cases hc : (sock.events &&& POLLIN == POLLIN) = true
    · rcases h : (response.recv sock mp).result with c | a
      · simp [response.poll, pollReadReadyCheck, hc, h] at hres
      · cases a with
        | ready mm => simp [response.poll, pollReadReadyCheck, hc, h]
        | notReady => simp [response.poll, pollReadReadyCheck, hc, h] at hres
    · simp [response.poll, pollReadReadyCheck, hc] at hres

/-- Witness for C7 at a readable socket delivering one single-frame multipart. -/
theorem c7_notify_only_on_receive_witness :
    Ev.notifyTask ∉ (request.poll sockNotReady mpA).trace
    ∧ Ev.notifyTask ∈ (response.poll
        { events := POLLIN, sends := [], recvs := [.msg { data := [2], more := false }] }
        []).trace := by
  refine ⟨c7_notify_only_on_receive.1 sockNotReady mpA, ?_⟩
  have hres : (response.poll
      { events := POLLIN, sends := [], recvs := [.msg { data := [2], more := false }] }
      []).result = .ok (.ready [{ data := [2], more := false }]) := rfl
  exact c7_notify_only_on_receive.2
    { events := POLLIN, sends := [], recvs := [.msg { data := [2], more := false }] }
    [] [{ data := [2], more := false }] hres

end AsyncZmq.TokioZmq

namespace AsyncZmq.TokioZmq

open AsyncZmq
open AsyncZmq.FuturesZmq

theorem recvLoopA_persists (events : Nat) (sends : List SendOutcome)
    (recvs : List RecvOutcome) :
    ∀ (mp : Multipart),
      (recvLoopA events sends recvs mp).result = .ok .notReady →
      (recvLoopA events sends recvs mp).mp = mp ++ moreRun recvs := by
  induction recvs with
  | nil => intro mp h; simp [recvLoopA, moreRun]
  | cons o rest ih =>
    intro mp h
    cases o with
    | eagain => simp [recvLoopA, moreRun]
    | err c => simp [recvLoopA] at h
    | msg m =>
      by_cases hm : m.more = true
      · have h2 : (recvLoopA events sends rest (mp ++ [m])).result = .ok .notReady := by
          simpa [recvLoopA, hm] using h
        simp [recvLoopA, hm, moreRun, ih (mp ++ [m]) h2]
      · simp [recvLoopA, hm] at h

/-- C3 (code bug): Core A's receive state machine keeps the partially
accumulated working multipart across an EAGAIN suspension — on NotReady it
returns exactly the input accumulator extended by the frames consumed this
tick. Core B's worker receive handler instead rebuilds the working multipart
as a loop-local value: at the failing input (one frame with the more-flag set,
then EAGAIN) the worker state afterwards carries the frame nowhere — the
pending-receive queue, the stored responder and the emitted replies are all
unchanged — so the partially-accumulated frame is discarded, contradicting the
restartability requirement. -/
theorem c3_partial_multipart_persistence :
    (∀ sock mp, (response.recv sock mp).result = .ok .notReady →
        (response.recv sock mp).mp = mp ++ moreRun sock.recvs)
    ∧ Pollable.recvMsg lossyPollable
        = ({ sock := { sends := [], recvs := [] }, kind := .unused, msg := [],
             pendingRecvMsg := [], sendResponder := false, recvResponder := true }, []) := by
  constructor
  · intro sock mp h
    exact recvLoopA_persists sock.events sock.sends sock.recvs mp h
  · rfl

/-- Witness for C3 at a tick receiving one more-flagged frame then EAGAIN. -/
theorem c3_partial_multipart_persistence_witness :
    (response.recv { events := 0, sends := [], recvs := [.msg lostFrame, .eagain] } []).mp
      = [] ++ moreRun [.msg lostFrame, .eagain] := by
  exact c3_partial_multipart_persistence.1
    { events := 0, sends := [], recvs := [.msg lostFrame, .eagain] } [] rfl

theorem sendA_attempts (mp : Multipart) :
    ∀ (sock : ZSock), ∃ k, (request.send sock mp).attempts = (flagged mp).take k := by
  induction mp with
  | nil => intro sock; exact ⟨0, rfl⟩
  | cons m rest ih =>
    intro sock
    rcases hs : sock.sends with _ | ⟨o, srest⟩
    · exact ⟨1, by simp [request.send, sendMsgStep, hs, flagged]⟩
    · cases o with
      | ok =>
        obtain ⟨k, hk⟩ := ih { sock with sends := srest }
        exact ⟨k + 1, by simp [request.send, sendMsgStep, hs, flagged, hk]⟩
      | eagain => exact ⟨1, by simp [request.send, sendMsgStep, hs, flagged]⟩
      | err c => exact ⟨1, by simp [request.send, sendMsgStep, hs, flagged]⟩

theorem sendA_no_loss (mp : Multipart) :
    ∀ (sock : ZSock), (request.send sock mp).result = .ok .notReady →
      (request.send sock mp).sentOk ++ (request.send sock mp).mp = mp := by
  induction mp with
  | nil => intro sock h; simp [request.send] at h
  | cons m rest ih =>
    intro sock h
    rcases hs : sock.sends with _ | ⟨o, srest⟩
    · simp [request.send, sendMsgStep, hs]
    · cases o with
      | ok =>
        have h2 : (request.send { sock with sends := srest } rest).result = .ok .notReady := by
          simpa [request.send, sendMsgStep, hs] using h
        simp [request.send, sendMsgStep, hs, ih { sock with sends := srest } h2]
      | eagain => simp [request.send, sendMsgStep, hs]
      | err c => simp [request.send, sendMsgStep, hs] at h

end AsyncZmq.TokioZmq

namespace AsyncZmq

theorem take_append_length {α : Type} (l1 l2 : List α) (i : Nat) :
    (l1 ++ l2).take (l1.length + i) = l1 ++ l2.take i := by
  induction l1 with
  | nil => simp
  | cons a rest ih => simp [Nat.succ_add, ih]

end AsyncZmq

namespace AsyncZmq.FuturesZmq

open AsyncZmq

theorem sendParts_attempts (mp : Multipart) : ∀ sock,
    ∃ k, k ≤ (flagged mp).length ∧ (sendParts sock mp).attempts = (flagged mp).take k := by
  induction mp with
  | nil => intro sock; exact ⟨0, by simp, rfl⟩
  | cons m mrest ih =>
    intro sock
    rcases hs : sock.sends with _ | ⟨⟨o, cl⟩, srest⟩
    · refine ⟨1, by simp [flagged], ?_⟩
      simp [sendParts, sendStepB, hs, flagged]
    · cases o with
      | ok =>
        obtain ⟨k, hkle, hk⟩ := ih { sock with sends := srest }
        refine ⟨k + 1, by simp [flagged]; omega, ?_⟩
        simp [sendParts, sendStepB, hs, flagged, hk]
      | eagain =>
        cases cl with
        | none =>
          refine ⟨1, by simp [flagged], ?_⟩
          simp [sendParts, sendStepB, hs, flagged]
        | some c =>
          refine ⟨1, by simp [flagged], ?_⟩
          simp [sendParts, sendStepB, hs, flagged]
      | err c =>
        refine ⟨1, by simp [flagged], ?_⟩
        simp [sendParts, sendStepB, hs, flagged]

theorem sendParts_sent (mp : Multipart) : ∀ sock,
    ((sendParts sock mp).tag = .allSent →
      (sendParts sock mp).sentOk = mp ∧ (sendParts sock mp).attempts = flagged mp)
    ∧ (∀ restMp, (sendParts sock mp).tag = .blocked restMp →
        (sendParts sock mp).sentOk ++ restMp = mp) := by
  induction mp with
  | nil =>
    intro sock
    exact ⟨fun h => ⟨rfl, rfl⟩, fun restMp h => by simp [sendParts] at h⟩
  | cons m mrest ih =>
    intro sock
    rcases hs : sock.sends with _ | ⟨⟨o, cl⟩, srest⟩
    · constructor
      · intro h; simp [sendParts, sendStepB, hs] at h
      · intro restMp h
        simp [sendParts, sendStepB, hs] at h ⊢
        simp [← h]
    · cases o with
      | ok =>
        have ih2 := ih { sock with sends := srest }
        constructor
        · intro h
          simp [sendParts, sendStepB, hs] at h ⊢
          have h3 := ih2.1 h
          exact ⟨h3.1, by simp [flagged, h3.2]⟩
        · intro restMp h
          simp [sendParts, sendStepB, hs] at h ⊢
          exact ih2.2 restMp h
      | eagain =>
        cases cl with
        | none =>
          constructor
          · intro h; simp [sendParts, sendStepB, hs] at h
          · intro restMp h
            simp [sendParts, sendStepB, hs] at h ⊢
            simp [← h]
        | some c =>
          constructor
          · intro h; simp [sendParts, sendStepB, hs] at h
          · intro restMp h; simp [sendParts, sendStepB, hs] at h
      | err c =>
        constructor
        · intro h; simp [sendParts, sendStepB, hs] at h
        · intro restMp h; simp [sendParts, sendStepB, hs] at h

theorem sendB_attempts (q : List Multipart) : ∀ sock resp kind,
    ∃ k, (sendMsgGo sock q resp kind).attempts = (flaggedQ q).take k := by
  induction q with
  | nil => intro sock resp kind; exact ⟨0, rfl⟩
  | cons mp qrest ih =>
    intro sock resp kind
    cases mp with
    | nil =>
      obtain ⟨k, hk⟩ := ih sock resp kind
      exact ⟨k, by simpa [sendMsgGo, flaggedQ, flagged] using hk⟩
    | cons m mrest =>
      obtain ⟨k, hkle, hk⟩ := sendParts_attempts (m :: mrest) sock
      rcases hp : sendParts sock (m :: mrest) with ⟨tag, sock2, sent, att⟩
      rw [hp] at hk
      simp only at hk
      cases tag with
      | blocked restMp =>
        refine ⟨k, ?_⟩
        simp only [sendMsgGo, hp, flaggedQ]
        rw [List.take_append_of_le_length hkle]
        exact hk
      | cloneFail c =>
        refine ⟨k, ?_⟩
        cases resp <;>
          · simp only [sendMsgGo, hp, flaggedQ, Bool.false_eq_true, if_true, if_false]
            rw [List.take_append_of_le_length hkle]
            exact hk
      | hardErr c =>
        refine ⟨k, ?_⟩
        cases resp <;>
          · simp only [sendMsgGo, hp, flaggedQ, Bool.false_eq_true, if_true, if_false]
            rw [List.take_append_of_le_length hkle]
            exact hk
      | allSent =>
        have hall := (sendParts_sent (m :: mrest) sock).1 (by rw [hp])
        rw [hp] at hall
        simp only at hall
        cases qrest with
        | nil =>
          refine ⟨(flagged (m :: mrest)).length, ?_⟩
          cases resp <;>
            · simp only [sendMsgGo, hp, flaggedQ]
              rw [List.take_append_of_le_length (Nat.le_refl _)]
              simp [hall.2, List.take_length]
        | cons q1 qmore =>
          obtain ⟨k2, hk2⟩ := ih sock2 resp kind
          refine ⟨(flagged (m :: mrest)).length + k2, ?_⟩
          simp only [sendMsgGo, hp, flaggedQ]
          rw [take_append_length]
          simp only [flaggedQ] at hk2
          rw [hall.2, hk2]

theorem sendB_blocked (q : List Multipart) : ∀ sock resp kind,
    (sendMsgGo sock q resp kind).blocked = true →
      (sendMsgGo sock q resp kind).sentOk ++ frames (sendMsgGo sock q resp kind).queue
        = frames q
      ∧ (sendMsgGo sock q resp kind).kind = kind := by
  induction q with
  | nil => intro sock resp kind h; simp [sendMsgGo] at h
  | cons mp qrest ih =>
    intro sock resp kind h
    cases mp with
    | nil =>
      have h2 : (sendMsgGo sock qrest resp kind).blocked = true := by
        simpa [sendMsgGo] using h
      have := ih sock resp kind h2
      constructor
      · simpa [sendMsgGo, frames] using this.1
      · simpa [sendMsgGo] using this.2
    | cons m mrest =>
      rcases hp : sendParts sock (m :: mrest) with ⟨tag, sock2, sent, att⟩
      cases tag with
      | blocked restMp =>
        have hsent := (sendParts_sent (m :: mrest) sock).2 restMp (by rw [hp])
        rw [hp] at hsent
        simp only at hsent
        constructor
        · simp only [sendMsgGo, hp, frames]
          rw [← List.append_assoc, hsent]
        · simp [sendMsgGo, hp]
      | cloneFail c =>
        exfalso
        cases resp <;> simp [sendMsgGo, hp] at h
      | hardErr c =>
        exfalso
        cases resp <;> simp [sendMsgGo, hp] at h
      | allSent =>
        have hall := (sendParts_sent (m :: mrest) sock).1 (by rw [hp])
        rw [hp] at hall
        simp only at hall
        cases qrest with
        | nil =>
          exfalso
          cases resp <;> simp [sendMsgGo, hp] at h
        | cons q1 qmore =>
          have h2 : (sendMsgGo sock2 (q1 :: qmore) resp kind).blocked = true := by
            simpa [sendMsgGo, hp] using h
          have ih2 := ih sock2 resp kind h2
          constructor
          · simp only [sendMsgGo, hp, frames]
            rw [hall.1, List.append_assoc, ih2.1]
            simp [frames]
          · simpa [sendMsgGo, hp] using ih2.2

end AsyncZmq.FuturesZmq

namespace AsyncZmq

open AsyncZmq.TokioZmq
open AsyncZmq.FuturesZmq

/-- C6 counterexample: in Core B's worker send handler, a native send that
reports transient unavailability (EAGAIN) while the pre-send
`Message::from_slice` clone failed does not push the frame back: the whole
multipart is dropped from the queue, the write arm is cleared and the stored
responder receives the error — frames are lost on transient unavailability,
contrary to the claim. Here the socket oracle records one attempt whose
native send returns EAGAIN and whose clone fails with code 7; the two queued
frames vanish and an error reply is emitted. -/
theorem c6_counterexample :
    (sendMsgGo { sends := [(.eagain, some 7)], recvs := [] } [mpA ++ mpB] true .sendMsg).queue
      = []
    ∧ (sendMsgGo { sends := [(.eagain, some 7)], recvs := [] } [mpA ++ mpB] true .sendMsg).sentOk
      = []
    ∧ (sendMsgGo { sends := [(.eagain, some 7)], recvs := [] } [mpA ++ mpB] true .sendMsg).blocked
      = false
    ∧ (sendMsgGo { sends := [(.eagain, some 7)], recvs := [] } [mpA ++ mpB] true .sendMsg).evs
      = [.respondedSend (.error (.zmqErr 7))] := by
  exact ⟨rfl, rfl, rfl, rfl⟩

/-- C6 (amended): in both cores' send loops every native send attempt carries
flags `DONTWAIT` plus `SNDMORE` exactly when frames remain after the popped
head (the attempt list is a prefix of the per-position flag assignment
`flagged`). In Core A, when the loop stops on transient unavailability the
(byte-identical clone of the) failed frame is back at the front of the
remaining multipart: the frames accepted so far followed by the remaining
frames are exactly the original frames, in order, so a retry resends them in
the original order. In Core B the same push-back holds only when the
`Message::from_slice` clone taken before the send succeeded (the `blocked`
outcome; the write arm is additionally left unchanged so the retry happens);
when that clone failed, the EAGAIN is treated as fatal instead: the remaining
multipart is discarded, the write arm cleared, and the stored responder
receives the error. -/
theorem c6_send_flags_and_pushback :
    (∀ sock mp, ∃ k, (request.send sock mp).attempts = (flagged mp).take k)
    ∧ (∀ sock mp, (request.send sock mp).result = .ok .notReady →
        (request.send sock mp).sentOk ++ (request.send sock mp).mp = mp)
    ∧ (∀ sock q resp kind, ∃ k,
        (sendMsgGo sock q resp kind).attempts = (flaggedQ q).take k)
    ∧ (∀ sock q resp kind, (sendMsgGo sock q resp kind).blocked = true →
        (sendMsgGo sock q resp kind).sentOk ++ frames (sendMsgGo sock q resp kind).queue
          = frames q
        ∧ (sendMsgGo sock q resp kind).kind = kind)
    ∧ (∀ (sock sock2 : ZSockB) (m : Msg) (mrest : List Msg) (qrest : List Multipart)
        (kind : PollKind) (c : Nat) (sent : List Msg) (att : List (Msg × Nat)),
        sendParts sock (m :: mrest)
          = { tag := .cloneFail c, sock := sock2, sentOk := sent, attempts := att } →
        sendMsgGo sock ((m :: mrest) :: qrest) true kind
          = { sock := sock2, queue := qrest, kind := kind.clearWrite,
              sendResponder := false,
              evs := [.respondedSend (.error (.zmqErr c))], sentOk := sent,
              attempts := att, blocked := false, panicked := false }) := by
  refine ⟨?_, ?_, ?_, ?_, ?_⟩
  · intro sock mp; exact sendA_attempts mp sock
  · intro sock mp h; exact sendA_no_loss mp sock h
  · intro sock q resp kind; exact sendB_attempts q sock resp kind
  · intro sock q resp kind h; exact sendB_blocked q sock resp kind h
  · intro sock sock2 m mrest qrest kind c sent att h
    simp [sendMsgGo, h]

/-- Witness for C6: Core A accepts one frame then blocks (frames preserved in
order); Core B blocks on its first frame with a successful clone, keeping the
frames and the write arm; Core B with a failed clone drops the multipart and
replies with the error. -/
theorem c6_send_flags_and_pushback_witness :
    (request.send { events := 0, sends := [.ok, .eagain], recvs := [] } (mpA ++ mpB)).sentOk
        ++ (request.send { events := 0, sends := [.ok, .eagain], recvs := [] } (mpA ++ mpB)).mp
      = mpA ++ mpB
    ∧ (sendMsgGo { sends := [(.eagain, none)], recvs := [] } [mpA ++ mpB] true .sendMsg).sentOk
        ++ frames (sendMsgGo { sends := [(.eagain, none)], recvs := [] } [mpA ++ mpB] true .sendMsg).queue
      = frames [mpA ++ mpB]
    ∧ (sendMsgGo { sends := [(.eagain, none)], recvs := [] } [mpA ++ mpB] true .sendMsg).kind
      = .sendMsg
    ∧ sendMsgGo { sends := [(.eagain, some 7)], recvs := [] } [mpA ++ mpB] true .sendMsg
      = { sock := { sends := [], recvs := [] }, queue := [], kind := PollKind.unused,
          sendResponder := false,
          evs := [.respondedSend (.error (.zmqErr 7))], sentOk := [],
          attempts := [({ data := [10], more := false }, DONTWAIT ||| SNDMORE)],
          blocked := false, panicked := false } := by
  refine ⟨c6_send_flags_and_pushback.2.1 _ _ rfl, ?_, ?_, ?_⟩
  · exact (c6_send_flags_and_pushback.2.2.2.1 { sends := [(.eagain, none)], recvs := [] }
      [mpA ++ mpB] true .sendMsg rfl).1
  · exact (c6_send_flags_and_pushback.2.2.2.1 { sends := [(.eagain, none)], recvs := [] }
      [mpA ++ mpB] true .sendMsg rfl).2
  · exact c6_send_flags_and_pushback.2.2.2.2 { sends := [(.eagain, some 7)], recvs := [] }
      { sends := [], recvs := [] } { data := [10], more := false }
      [{ data := [11], more := false }] [] .sendMsg 7 []
      [({ data := [10], more := false }, DONTWAIT ||| SNDMORE)] rfl

end AsyncZmq

namespace AsyncZmq

open AsyncZmq.TokioZmq
open AsyncZmq.FuturesZmq

/-- C1 counterexample: Core A's `SinkType` with `buffer_size = 1`, its queue
already holding one undrained multipart on an unwritable socket, accepts the
next `start_send` instead of returning back-pressure: the rejection test is
`len > 0 && len > buffer_size`, so the queue grows to two multiparts —
`buffer_size + 1` — before any rejection. -/
theorem c1_counterexample :
    (startSendA 1 sockNotReady [mpA] mpB).1 = .ok .accepted
    ∧ (startSendA 1 sockNotReady [mpA] mpB).2.1 = [mpA, mpB] := by
  exact ⟨rfl, rfl⟩

/-- C1 (amended): Core B's `MultipartSink` enforces the stated bound — after
the initial drain, `start_send` rejects with the unmodified multipart exactly
when the buffered queue still holds at least `buffer_size` multiparts, so an
accepted multipart never grows the queue beyond `buffer_size`. Core A's
`SinkType` rejects only when the drained queue holds strictly more than
`buffer_size` multiparts, so it accepts with the queue at `buffer_size` and
its queue can reach `buffer_size + 1`. -/
theorem c1_backpressure_amended :
    (∀ bs st q or mp r st2 q2 or2,
        pollCompleteB st q or = some (.ok r, st2, q2, or2) →
        (bs ≤ q2.length →
          startSendB bs st q or mp = some (.ok (.notReadySink mp), st2, q2, or2))
        ∧ (q2.length < bs →
          startSendB bs st q or mp = some (.ok .accepted, st2, q2 ++ [mp], or2)
          ∧ (q2 ++ [mp]).length ≤ bs))
    ∧ (∀ bs sock pending mp r,
        (pollCompleteA sock pending).result = .ok r →
        (bs < (pollCompleteA sock pending).pending.length →
          (startSendA bs sock pending mp).1 = .ok (.notReadySink mp)
          ∧ (startSendA bs sock pending mp).2.1 = (pollCompleteA sock pending).pending)
        ∧ ((pollCompleteA sock pending).pending.length ≤ bs →
          (startSendA bs sock pending mp).1 = .ok .accepted
          ∧ (startSendA bs sock pending mp).2.1
              = (pollCompleteA sock pending).pending ++ [mp]
          ∧ ((pollCompleteA sock pending).pending ++ [mp]).length ≤ bs + 1)) := by
  constructor
  · intro bs st q or mp r st2 q2 or2 h
    constructor
    · intro hle
      simp only [startSendB, h]
      rw [if_pos hle]
    · intro hlt
      simp only [startSendB, h]
      rw [if_neg (by omega)]
      exact ⟨rfl, by simp; omega⟩
  · intro bs sock pending mp r h
    constructor
    · intro hlt
      simp only [startSendA, h]
      rw [if_pos ⟨by omega, hlt⟩]
      exact ⟨rfl, rfl⟩
    · intro hle
      simp only [startSendA, h]
      rw [if_neg (by omega)]
      refine ⟨rfl, rfl, ?_⟩
      simp
      omega

/-- Witness for C1 at concrete sinks: Core B with `buffer_size = 1` rejects
when its drained queue holds one multipart; Core A with `buffer_size = 0`
rejects when its drained queue holds one multipart. -/
theorem c1_backpressure_witness :
    startSendB 1 .ready [mpA, mpB] [] mpC
      = some (.ok (.notReadySink mpC), .running, [mpB], [])
    ∧ (startSendA 0 sockNotReady [mpA] mpB).1 = .ok (.notReadySink mpB) := by
  have hB := (c1_backpressure_amended.1 1 .ready [mpA, mpB] [] mpC .notReady .running
    [mpB] [] rfl).1 (by decide)
  have hA := ((c1_backpressure_amended.2 0 sockNotReady [mpA] mpB .notReady rfl).1
    (by decide)).1
  exact ⟨hB, hA⟩

end AsyncZmq

namespace AsyncZmq.FuturesZmq

open AsyncZmq

theorem isWritableAt_zero (sockets : List (Nat × Pollable)) (id : Nat) :
    isWritableAt sockets id 0 = false := by
  simp only [isWritableAt]
  cases lookupSock id sockets <;> simp [POLLOUT]

theorem isReadableAt_zero (sockets : List (Nat × Pollable)) (id : Nat) :
    isReadableAt sockets id 0 = false := by
  simp only [isReadableAt]
  cases lookupSock id sockets <;> simp [POLLIN]

theorem canonical_nil (sockets : List (Nat × Pollable)) :
    ∀ pairs : List (Nat × Nat), pairs.countP (fun pr => pr.2 != 0) = 0 →
      canonicalSchedule sockets pairs = [] := by
  intro pairs
  induction pairs with
  | nil => intro h; rfl
  | cons pr rest ih =>
    intro h
    obtain ⟨id, rev⟩ := pr
    have hrev : rev = 0 := by
      by_cases hz : rev = 0
      · exact hz
      · simp [List.countP_cons, hz] at h
    subst hrev
    have hrest : rest.countP (fun pr => pr.2 != 0) = 0 := by
      simpa [List.countP_cons] using h
    simp [canonicalSchedule, isWritableAt_zero, isReadableAt_zero]
    simpa [canonicalSchedule] using ih hrest

theorem scheduleGo_eq_canonical (sockets : List (Nat × Pollable)) :
    ∀ (pairs : List (Nat × Nat)) (count num : Nat),
      count + pairs.countP (fun pr => pr.2 != 0) ≤ num →
      scheduleGo sockets pairs count num = canonicalSchedule sockets pairs := by
  intro pairs
  induction pairs with
  | nil => intro count num h; rfl
  | cons pr rest ih =>
    intro count num h
    obtain ⟨id, rev⟩ := pr
    by_cases hrev : rev = 0
    · subst hrev
      have hw := isWritableAt_zero sockets id
      have hr := isReadableAt_zero sockets id
      have hcount : count + rest.countP (fun pr => pr.2 != 0) ≤ num := by
        simpa [List.countP_cons] using h
      by_cases hb : num ≤ count
      · have hzero : rest.countP (fun pr => pr.2 != 0) = 0 := by omega
        simp [scheduleGo, hw, hr, hb, canonicalSchedule, isWritableAt_zero,
          isReadableAt_zero]
        simpa [canonicalSchedule] using (canonical_nil sockets rest hzero).symm
      · simp [scheduleGo, hw, hr, hb, canonicalSchedule, isWritableAt_zero,
          isReadableAt_zero]
        simpa [canonicalSchedule] using ih count num hcount
    · have hcount : count + (rest.countP (fun pr => pr.2 != 0) + 1) ≤ num := by
        simpa [List.countP_cons, hrev] using h
      by_cases hw : isWritableAt sockets id rev = true
      · by_cases hb : num ≤ count + 1
        · have hzero : rest.countP (fun pr => pr.2 != 0) = 0 := by omega
          simp [scheduleGo, hw, hb, canonicalSchedule]
          simpa [canonicalSchedule] using canonical_nil sockets rest hzero
        · simp [scheduleGo, hw, hb, canonicalSchedule, ih (count + 1) num (by omega)]
      · by_cases hrd : isReadableAt sockets id rev = true
        · by_cases hb : num ≤ count + 1
          · have hzero : rest.countP (fun pr => pr.2 != 0) = 0 := by omega
            simp [scheduleGo, hw, hrd, hb, canonicalSchedule]
            simpa [canonicalSchedule] using canonical_nil sockets rest hzero
          · simp [scheduleGo, hw, hrd, hb, canonicalSchedule,
              ih (count + 1) num (by omega)]
        · have hb : ¬num ≤ count := by omega
          simp [scheduleGo, hw, hrd, hb, canonicalSchedule, ih count num (by omega)]

/-- C8: on every wake of Core B's poll phase the worker schedules exactly one
action per socket whose poll result matches its armed events — the send action
whenever the write direction fired, the receive action otherwise — in map
order (the count-based early break never skips a matching socket), and the
scheduled actions are executed in reverse (LIFO) order of scheduling. -/
theorem c8_send_priority_lifo :
    (∀ (sockets : List (Nat × Pollable)) (pairs : List (Nat × Nat)) (pipeRev : Nat),
        schedule sockets pairs pipeRev = canonicalSchedule sockets pairs)
    ∧ (∀ (revents : Nat → Nat) (pipeRev : Nat) (st : PollThreadState),
        (pollPhase revents pipeRev st).2.1
          = (canonicalSchedule st.sockets
              (st.sockets.map (fun e => (e.1, revents e.1 &&& e.2.kind.asEvents)))).reverse) := by
  have main : ∀ (sockets : List (Nat × Pollable)) (pairs : List (Nat × Nat)) (pipeRev : Nat),
      schedule sockets pairs pipeRev = canonicalSchedule sockets pairs := by
    intro sockets pairs pipeRev
    apply scheduleGo_eq_canonical
    by_cases hp : (pipeRev &&& POLLIN == POLLIN) = true
    · have hne : (pipeRev != 0) = true := by
        rcases Nat.eq_zero_or_pos pipeRev with h0 | h0
        · subst h0; simp [POLLIN] at hp
        · simpa using Nat.pos_iff_ne_zero.mp h0
      simp only [numSignalled, hne, if_true]
      split <;> omega
    · simp only [numSignalled]
      have : ¬(0 < pairs.countP (fun pr => pr.2 != 0)
          + (if (pipeRev != 0) = true then 1 else 0) ∧ (pipeRev &&& POLLIN == POLLIN) = true) := by
        intro hc; exact hp hc.2
      rw [if_neg this]
      split <;> omega
  refine ⟨main, ?_⟩
  intro revents pipeRev st
  simp only [pollPhase]
  rw [main]
